import Mathlib

/-!
Verification development for the HD44780 i2c character-display driver
(`HD44780.py`).  The Python source is shallowly embedded: every register
value, command byte and bitmask is an arbitrary-precision integer in the
source, and every value that the driver actually manipulates is
non-negative, so the embedding uses `Nat` throughout the protocol
encoder and `Int` in the one place where Python integer subtraction can
matter (`set_cursor`).  Bus output is modelled as the list of register
values handed to `write_reg` (one entry per nibble transaction, i.e. one
enable pulse); `write_reg` itself is also modelled so that the
enable-pulse expansion of each transaction is on record.
-/

namespace HD44780

/-! ## Class constants (HD44780.py lines 47-89) -/

def CLEAR_DISPLAY      : Nat := 0x01
def RETURN_HOME        : Nat := 0x02
def ENTRY_MODE_SET     : Nat := 0x04
def DISPLAY_SET        : Nat := 0x08
def CURSOR_SHIFT       : Nat := 0x10
def FUNCTION_SET       : Nat := 0x20
def CGRAM_ADDR_SET     : Nat := 0x40
def DDRAM_ADDR_SET     : Nat := 0x80

def ENTRY_MODE_DEC     : Nat := 0x00
def ENTRY_MODE_INC     : Nat := 0x01
def ENTRY_MODE_SHRIGHT : Nat := 0x00
def ENTRY_MODE_SHLEFT  : Nat := 0x02

def DISPLAY_BLINK_OFF  : Nat := 0x00
def DISPLAY_BLINK_ON   : Nat := 0x01
def DISPLAY_CURSOR_OFF : Nat := 0x00
def DISPLAY_CURSOR_ON  : Nat := 0x02
def DISPLAY_OFF        : Nat := 0x00
def DISPLAY_ON         : Nat := 0x04

def DC_MOVE_LEFT       : Nat := 0x00
def DC_MOVE_RIGHT      : Nat := 0x04
def DC_CURSOR_MOVE     : Nat := 0x00
def DC_DISPLAY_MOVE    : Nat := 0x08

def FUNCTION_5X8       : Nat := 0x00
def FUNCTION_5X10      : Nat := 0x04
def FUNCTION_1LINE     : Nat := 0x00
def FUNCTION_2LINE     : Nat := 0x08
def FUNCTION_4BIT      : Nat := 0x00
def FUNCTION_8BIT      : Nat := 0x10

def REG_RS : Nat := 0b00000001
def REG_RW : Nat := 0b00000010
def REG_EN : Nat := 0b00000100
def REG_BL : Nat := 0b00001000
def REG_D4 : Nat := 0b00010000
def REG_D5 : Nat := 0b00100000
def REG_D6 : Nat := 0b01000000
def REG_D7 : Nat := 0b10000000

/-! ## Bitwise helper -/

/-- Python's bitwise `x & ~y` on its arbitrary-precision integers, for the
non-negative values that occur in this driver: `~y` has every bit above
`y` set, so `x & ~y` keeps exactly the bits of `x` that are not set in
`y`.  On `Nat` that value is `x - (x &&& y)` (the shared bits are a
sub-mask of `x`, so the subtraction clears precisely them). -/
def andNotBits (x y : Nat) : Nat := x - (x &&& y)

/-! ## Address translation (`set_cursor`, HD44780.py lines 144-148)

`set_cursor` computes `pos = 0x40 * row + col`, subtracts
`0x80 - self.cols` when `row > 1`, and writes the command byte
`DDRAM_ADDR_SET | pos`.  The subtraction is genuine Python integer
subtraction, so the intermediate value is modelled in `Int`. -/

/-- Embedding of the `pos` computation in `set_cursor`
(`pos = 0x40 * row + col; if row > 1: pos -= (0x80 - self.cols)`). -/
def set_cursor_pos (row col cols : Nat) : Int :=
  let pos : Int := 0x40 * row + col
  if row > 1 then pos - (0x80 - (cols : Int)) else pos

/-- Command byte issued by `set_cursor`: `DDRAM_ADDR_SET | pos`. -/
def set_cursor_cmd (row col cols : Nat) : Nat :=
  DDRAM_ADDR_SET ||| (set_cursor_pos row col cols).toNat

/-- Address-translation formula asserted by the claim (and by spec §4.4):
`base = 0x40 * (row mod 2) + col`, minus `0x80 - columns` when
`row ≥ 2`.  This definition follows the claim's words, for comparison
against `set_cursor_pos`, which follows the source. -/
def claimedTranslateC1 (row col cols : Nat) : Int :=
  0x40 * ((row : Int) % 2) + col - (if 2 ≤ row then 0x80 - (cols : Int) else 0)

/-! ## Protocol encoder (`write_reg` / `write_cmd` / `write_char`,
HD44780.py lines 126-138)

A nibble transaction is one call to `write_reg reg`, which performs two
i2c byte writes (`reg | REG_EN`, then `reg & ~REG_EN`) separated by the
enable-pulse and settle delays.  `write_cmd` composes two nibble
transactions per logical byte; its result here is the list of register
values handed to `write_reg`, in issue order. -/

/-- Embedding of `write_reg`: the two raw i2c bytes of one enable pulse
(`reg | REG_EN` with EN high, then `reg & ~REG_EN` with EN low). -/
def write_reg (reg : Nat) : List Nat :=
  [reg ||| REG_EN, andNotBits reg REG_EN]

/-- Control-flag byte used by `write_cmd`:
`flags |= REG_BL if self.backlight else 0`. -/
def cmdFlags (backlight : Bool) (flags : Nat) : Nat :=
  flags ||| (if backlight then REG_BL else 0)

/-- Embedding of `write_cmd val flags`: the two nibble-transaction register
values `val & 0xF0 | flags` and `val << 4 | flags` (with the backlight
bit or-ed into `flags` first), in high-then-low order.  Note that the
shifted low half is not masked to eight bits. -/
def write_cmd (backlight : Bool) (val : Nat) (flags : Nat) : List Nat :=
  [val &&& 0xF0 ||| cmdFlags backlight flags,
   val <<< 4 ||| cmdFlags backlight flags]

/-- Embedding of `write_char val`: `write_cmd val REG_RS`. -/
def write_char (backlight : Bool) (val : Nat) : List Nat :=
  write_cmd backlight val REG_RS

/-! ## FunctionSet byte in `__init__` (HD44780.py lines 111-112)

The source writes
`self.FUNCTION_SET | self.FUNCTION_4BIT | self.FUNCTION_5X8
 | self.FUNCTION_1LINE if rows==1 else self.FUNCTION_2LINE`.
Python's conditional expression binds looser than `|`, so the whole
or-chain is the `if` branch and the bare constant `FUNCTION_2LINE` is
the `else` branch. -/

/-- Value passed to `write_cmd` by init step 4, with the source's actual
parenthesisation. -/
def functionSetByte (rows : Nat) : Nat :=
  if rows = 1 then FUNCTION_SET ||| FUNCTION_4BIT ||| FUNCTION_5X8 ||| FUNCTION_1LINE
  else FUNCTION_2LINE

/-! ## Scrolling (`scroll_cursor` / `scroll_display`, HD44780.py
lines 222-228)

Both loops suffer the same conditional-expression precedence slip as the
FunctionSet write: the entire or-chain is the `if` branch, and the bare
`DC_MOVE_LEFT` (= 0) is the `else` branch. -/

/-- Byte passed to `write_cmd` by each iteration of `scroll_cursor`, with
the source's actual parenthesisation. -/
def scrollCursorByte (dir : Bool) : Nat :=
  if dir then CURSOR_SHIFT ||| DC_CURSOR_MOVE ||| DC_MOVE_RIGHT else DC_MOVE_LEFT

/-- Byte passed to `write_cmd` by each iteration of `scroll_display`. -/
def scrollDisplayByte (dir : Bool) : Nat :=
  if dir then CURSOR_SHIFT ||| DC_DISPLAY_MOVE ||| DC_MOVE_RIGHT else DC_MOVE_LEFT

/-- Command bytes issued by `scroll_cursor(cols, dir)`: the `for col in
range(cols)` loop issues one identical command per iteration. -/
def scrollCursorCmds : Nat → Bool → List Nat
  | 0, _ => []
  | n + 1, dir => scrollCursorByte dir :: scrollCursorCmds n dir

/-- Command bytes issued by `scroll_display(cols, dir)`. -/
def scrollDisplayCmds : Nat → Bool → List Nat
  | 0, _ => []
  | n + 1, dir => scrollDisplayByte dir :: scrollDisplayCmds n dir

/-! ## `clear` and `home` (HD44780.py lines 150-156)

Both are written `def clear():` / `def home():` — with no `self`
parameter.  A bound call `lcd.clear()` therefore passes one argument to
a zero-parameter function and raises `TypeError`; the bodies also read
the then-unbound name `self`.  The bodies themselves would issue the
right command followed by a `sleep(0.00167)`, i.e. 1670 µs, which meets
the ≥ 1.52 ms settle requirement.  Delays are modelled in microseconds. -/

/-- Number of formal parameters of `def clear():` in the source. -/
def clearParamCount : Nat := 0

/-- Number of formal parameters of `def home():` in the source. -/
def homeParamCount : Nat := 0

/-- Number of arguments a bound instance call `lcd.clear()` passes (the
implicit instance itself). -/
def boundCallArgCount : Nat := 1

/-- Command byte the body of `clear` would write. -/
def clearCmdByte : Nat := CLEAR_DISPLAY

/-- Command byte the body of `home` would write. -/
def homeCmdByte : Nat := RETURN_HOME

/-- Settle delay of `clear` in microseconds (`sleep(0.00167)`). -/
def clearDelayUs : Nat := 1670

/-- Settle delay of `home` in microseconds (`sleep(0.00167)`). -/
def homeDelayUs : Nat := 1670

/-! ## Construction (`__init__`, HD44780.py lines 93-124)

`__init__(rows=2, cols=16, addr=0x3f, bus=1)` stores the configuration
(`self.backlight = True` before any write), performs four raw forcing
writes, then issues FunctionSet, DisplaySet, ClearDisplay and
EntryModeSet through `write_cmd`.  It contains no parameter validation
of any kind, and never consults `cols`. -/

/-- The four raw forcing writes of init steps 1-3
(`REG_D5 | REG_D4` three times, then `REG_D5`). -/
def initRawRegs : List Nat :=
  [REG_D5 ||| REG_D4, REG_D5 ||| REG_D4, REG_D5 ||| REG_D4, REG_D5]

/-- Display-control mask captured at construction
(`DISPLAY_ON | DISPLAY_CURSOR_OFF | DISPLAY_BLINK_OFF`). -/
def initDisplayMask : Nat := DISPLAY_ON ||| DISPLAY_CURSOR_OFF ||| DISPLAY_BLINK_OFF

/-- Entry-mode mask captured at construction
(`ENTRY_MODE_SHLEFT | ENTRY_MODE_DEC`). -/
def initEntryModeMask : Nat := ENTRY_MODE_SHLEFT ||| ENTRY_MODE_DEC

/-- The four structured command bytes issued by `__init__` after the raw
forcing writes, in issue order. -/
def initCmdBytes (rows : Nat) : List Nat :=
  [functionSetByte rows, DISPLAY_SET ||| initDisplayMask, CLEAR_DISPLAY,
   ENTRY_MODE_SET ||| initEntryModeMask]

set_option linter.unusedVariables false in
/-- Full nibble-transaction trace of `__init__` (register values handed to
`write_reg`, in issue order).  `cols` is a parameter because the
constructor receives it, but the body never reads it — there is no
validation and no `cols`-dependent write. -/
def initRegTrace (rows cols : Nat) : List Nat :=
  initRawRegs ++ (initCmdBytes rows).flatMap (fun b => write_cmd true b 0)

/-! ## Driver state and attribute setters (HD44780.py lines 93-124 and
160-220)

The persistent object state: `self.rows`, `self.cols`,
`self.backlight`, `self._display`, `self._entry_mode`.  Bus output of
the structured command layer is recorded as the list of command bytes
handed to `write_cmd` with `flags = 0`, most recent first (the device is
write-only: the model has no read operation, and every step only
prepends to the record). -/

structure DriverState where
  rows : Nat
  cols : Nat
  backlight : Bool
  _display : Nat
  _entry_mode : Nat
  cmds : List Nat

/-- State immediately after `__init__(rows, cols, ...)`:
`self.rows = 1 if rows==1 else 2`, masks captured at lines 115 and 123,
and the four structured commands on the bus (most recent first). -/
def initState (rows cols : Nat) : DriverState :=
  { rows := if rows = 1 then 1 else 2
    cols := cols
    backlight := true
    _display := initDisplayMask
    _entry_mode := initEntryModeMask
    cmds := [ENTRY_MODE_SET ||| initEntryModeMask, CLEAR_DISPLAY,
             DISPLAY_SET ||| initDisplayMask, functionSetByte rows] }

/-- The six property setters of the driver. -/
inductive Op where
  | display (v : Bool)
  | cursor (v : Bool)
  | cursor_blink (v : Bool)
  | scroll_lock (v : Bool)
  | left_to_right (v : Bool)
  | right_to_left (v : Bool)

/-- Read-modify-write step shared by every setter:
`m |= bit` when the value is truthy, `m &= ~bit` otherwise. -/
def setBitVal (m bit : Nat) (v : Bool) : Nat :=
  if v then m ||| bit else andNotBits m bit

/-- Body of the `left_to_right` setter (also reached from the
`right_to_left` setter, which delegates with the negated value). -/
def setL2R (v : Bool) (s : DriverState) : DriverState :=
  let e := setBitVal s._entry_mode ENTRY_MODE_SHLEFT v
  { s with _entry_mode := e, cmds := (ENTRY_MODE_SET ||| e) :: s.cmds }

/-- One setter invocation: update the in-memory mask, then issue the
single corresponding command carrying the whole new mask. -/
def applyOp : Op → DriverState → DriverState
  | .display v, s =>
      let d := setBitVal s._display DISPLAY_ON v
      { s with _display := d, cmds := (DISPLAY_SET ||| d) :: s.cmds }
  | .cursor v, s =>
      let d := setBitVal s._display DISPLAY_CURSOR_ON v
      { s with _display := d, cmds := (DISPLAY_SET ||| d) :: s.cmds }
  | .cursor_blink v, s =>
      let d := setBitVal s._display DISPLAY_BLINK_ON v
      { s with _display := d, cmds := (DISPLAY_SET ||| d) :: s.cmds }
  | .scroll_lock v, s =>
      let e := setBitVal s._entry_mode ENTRY_MODE_INC v
      { s with _entry_mode := e, cmds := (ENTRY_MODE_SET ||| e) :: s.cmds }
  | .left_to_right v, s => setL2R v s
  | .right_to_left v, s => setL2R (!v) s

/-- Run a sequence of setter invocations left to right. -/
def runOps : List Op → DriverState → DriverState
  | [], s => s
  | op :: ops, s => runOps ops (applyOp op s)

/-- Command-stream decoding: a byte is a DisplaySet command when its
highest opcode bit is `DISPLAY_SET` (i.e. `0x08 ≤ b < 0x10`). -/
def isDisplaySetCmd (b : Nat) : Bool := decide (DISPLAY_SET ≤ b ∧ b < CURSOR_SHIFT)

/-- A byte is an EntryModeSet command when its highest opcode bit is
`ENTRY_MODE_SET` (i.e. `0x04 ≤ b < 0x08`). -/
def isEntryModeSetCmd (b : Nat) : Bool := decide (ENTRY_MODE_SET ≤ b ∧ b < DISPLAY_SET)

/-- Flag payload of a DisplaySet command byte. -/
def displayFlagsPayload (b : Nat) : Nat :=
  b &&& (DISPLAY_ON ||| DISPLAY_CURSOR_ON ||| DISPLAY_BLINK_ON)

/-- Flag payload of an EntryModeSet command byte. -/
def entryModeFlagsPayload (b : Nat) : Nat :=
  b &&& (ENTRY_MODE_INC ||| ENTRY_MODE_SHLEFT)

/-- The C9 invariant: both in-memory masks are in range, and each equals
the flag payload of the most recent command of its group on the bus. -/
def StateInv (s : DriverState) : Prop :=
  s._display < 8 ∧ s._entry_mode < 4 ∧
  (s.cmds.find? isDisplaySetCmd).map displayFlagsPayload = some s._display ∧
  (s.cmds.find? isEntryModeSetCmd).map entryModeFlagsPayload = some s._entry_mode

/-! ## Display-control flag algebra (C5)

The three display-control mutators (`display`, `cursor`, `cursor_blink`
setters, HD44780.py lines 160-191) form a read-modify-write algebra on
`self._display`. -/

/-- The three display-control attribute flags. -/
inductive DFlag where
  | dispOn
  | cursorVis
  | blink
deriving DecidableEq

/-- Mask bit of each display-control flag. -/
def DFlag.bit : DFlag → Nat
  | .dispOn => DISPLAY_ON
  | .cursorVis => DISPLAY_CURSOR_ON
  | .blink => DISPLAY_BLINK_ON

/-- Setter invocation corresponding to a display-control flag. -/
def DFlag.toOp : DFlag → Bool → Op
  | .dispOn, v => .display v
  | .cursorVis, v => .cursor v
  | .blink, v => .cursor_blink v

/-- Run a sequence of display-control mutations, each a flag with its new
boolean value, left to right. -/
def runDMuts : List (DFlag × Bool) → DriverState → DriverState
  | [], s => s
  | (f, v) :: ms, s => runDMuts ms (applyOp (f.toOp v) s)

/-- Property getter, exactly as in the source:
`self.DISPLAY_ON == (self._display & self.DISPLAY_ON)` etc. -/
def getFlag (m : Nat) (f : DFlag) : Bool := f.bit == m &&& f.bit

/-- Value assigned to flag `f` by the last mutation of `f` in the
sequence, if any. -/
def lastAssign (f : DFlag) : List (DFlag × Bool) → Option Bool
  | [] => none
  | (g, v) :: ms =>
    match lastAssign f ms with
    | some w => some w
    | none => if g = f then some v else none

/-! # Theorems -/

/-! ## General lemmas -/

/-- Any natural number is bounded above by its bitwise or with anything. -/
theorem le_lor (a b : Nat) : a ≤ a ||| b := by
  have h : a &&& (a ||| b) = a := by
    apply Nat.eq_of_testBit_eq
    intro i
    simp only [Nat.testBit_and, Nat.testBit_or]
    cases a.testBit i <;> simp
  calc a = a &&& (a ||| b) := h.symm
    _ ≤ a ||| b := Nat.and_le_right

/-- Values below 16 have an empty high nibble. -/
theorem and_hi_eq_zero_of_lt : ∀ v : Nat, v < 16 → v &&& 0xF0 = 0 := by
  decide

/-- The computed DDRAM position is never negative: for `row ≤ 1` it is a
sum of naturals, and for `row ≥ 2` the term `0x40 * row` absorbs the
`0x80` subtrahend. -/
theorem set_cursor_pos_nonneg (row col cols : Nat) :
    0 ≤ set_cursor_pos row col cols := by
  unfold set_cursor_pos
  split <;> push_cast <;> omega

/-! ## C1 -/

/-- C1: the claim's bank-alias formula does not match the code.  The source
multiplies `0x40` by `row` itself, not by `row mod 2`; at
`setCursor(3, 2)` on a 20-column display the code computes position
`0x56` (command byte `0xD6`), not the claimed payload `0x16` (which
would give command byte `0x96`).  The claimed formula would even be
negative there: `0x40 + 2 - (0x80 - 20) = -42`. -/
theorem c1_set_cursor_counterexample :
    set_cursor_pos 3 2 20 = 0x56 ∧
    set_cursor_pos 3 2 20 ≠ claimedTranslateC1 3 2 20 ∧
    claimedTranslateC1 3 2 20 = -42 ∧
    set_cursor_cmd 3 2 20 = 0xD6 ∧
    set_cursor_cmd 3 2 20 ≠ DDRAM_ADDR_SET ||| 0x16 := by
  refine ⟨by decide, by decide, by decide, by decide, by decide⟩

/-- C1 (amended): for every row, col and configured column count, the
address translation computes `base = 0x40 * row + col` (with the full
row index, not `row mod 2`) and, when `row ≥ 2`, subtracts
`0x80 - columns`; in particular `setCursor(3, 2)` on a 4-row, 20-column
display issues a DDRAMAddressSet command whose address payload is
`0x56`, i.e. the byte `0xD6`. -/
theorem c1_set_cursor_amended :
    (∀ row col cols : Nat,
      set_cursor_pos row col cols =
        0x40 * (row : Int) + col - (if 2 ≤ row then 0x80 - (cols : Int) else 0)) ∧
    set_cursor_pos 3 2 20 = 0x56 ∧
    set_cursor_cmd 3 2 20 = DDRAM_ADDR_SET ||| 0x56 := by
  refine ⟨?_, by decide, by decide⟩
  intro row col cols
  unfold set_cursor_pos
  rcases Nat.lt_or_ge 1 row with h | h
  · rw [if_pos h, if_pos (by omega)]
  · rw [if_neg (by omega), if_neg (by omega)]
    ring

/-! ## C2 -/

/-- C2: the translation is a function of `(row, col, columns)` alone (it
is a pure Lean function of exactly those arguments) and matches the
documented table: row 0 → `0x00 + col`; row 1 → `0x40 + col`;
row 2 → `0x00 + col + columns`; row 3 → `0x40 + col + columns`. -/
theorem c2_set_cursor_table (col cols : Nat) :
    set_cursor_pos 0 col cols = col ∧
    set_cursor_pos 1 col cols = 0x40 + col ∧
    set_cursor_pos 2 col cols = col + cols ∧
    set_cursor_pos 3 col cols = 0x40 + col + cols := by
  refine ⟨?_, ?_, ?_, ?_⟩ <;>
    · unfold set_cursor_pos
      norm_num
      try push_cast
      try ring

/-! ## C4 -/

set_option maxRecDepth 8192 in
/-- C4: for every byte `c`, `write_char c` issues exactly two nibble
transactions, both with the RS bit set, and or-ing the high nibble of
the first with the high nibble of the second shifted into the low half
reconstructs `c` exactly. -/
theorem c4_write_char_roundtrip (c : Nat) (hc : c < 256) (backlight : Bool) :
    (write_char backlight c).length = 2 ∧
    ((write_char backlight c).getD 0 0) &&& REG_RS = REG_RS ∧
    ((write_char backlight c).getD 1 0) &&& REG_RS = REG_RS ∧
    (((write_char backlight c).getD 0 0) &&& 0xF0) |||
      ((((write_char backlight c).getD 1 0) &&& 0xF0) >>> 4) = c := by
  cases backlight <;> revert c <;> decide

/-- Witness for C4 at `c = 0x48` with the backlight on. -/
theorem c4_write_char_roundtrip_witness :
    (0x48 : Nat) < 256 ∧
    ((write_char true 0x48).length = 2 ∧
     ((write_char true 0x48).getD 0 0) &&& REG_RS = REG_RS ∧
     ((write_char true 0x48).getD 1 0) &&& REG_RS = REG_RS ∧
     (((write_char true 0x48).getD 0 0) &&& 0xF0) |||
       ((((write_char true 0x48).getD 1 0) &&& 0xF0) >>> 4) = 0x48) :=
  ⟨by decide, c4_write_char_roundtrip 0x48 (by decide) true⟩

/-! ## C10 -/

/-- C10: `write_cmd` applies no 8-bit masking to the shifted low nibble.
Whenever the input's high nibble is non-zero the second nibble
transaction is handed `val << 4 | flags ≥ 0x100`, outside the u8 range
of the bus primitive's value parameter; in particular `write_char` of
any character code at least `0x10` does so on its second transaction. -/
theorem c10_write_cmd_overflow :
    (∀ val flags : Nat, ∀ backlight : Bool, val &&& 0xF0 ≠ 0 →
      0xFF < (write_cmd backlight val flags).getD 1 0) ∧
    (∀ c : Nat, ∀ backlight : Bool, 0x10 ≤ c →
      0xFF < (write_char backlight c).getD 1 0) := by
  have key : ∀ val flags : Nat, ∀ backlight : Bool, 0x10 ≤ val →
      0xFF < (write_cmd backlight val flags).getD 1 0 := by
    intro val flags backlight h16
    have hsnd : (write_cmd backlight val flags).getD 1 0 =
        val <<< 4 ||| cmdFlags backlight flags := rfl
    rw [hsnd]
    calc (0xFF : Nat) < val <<< 4 := by rw [Nat.shiftLeft_eq]; omega
      _ ≤ val <<< 4 ||| cmdFlags backlight flags := le_lor _ _
  refine ⟨?_, ?_⟩
  · intro val flags backlight hnib
    refine key val flags backlight ?_
    by_contra h
    exact hnib (and_hi_eq_zero_of_lt val (by omega))
  · intro c backlight h
    exact key c REG_RS backlight h

/-- Witness for C10 at `val = 0x41` (letter A): the second transaction
value is `0x419` with backlight on, far above `0xFF`. -/
theorem c10_write_cmd_overflow_witness :
    ((0x41 : Nat) &&& 0xF0 ≠ 0 ∧ 0xFF < (write_cmd true 0x41 0).getD 1 0) ∧
    ((0x10 : Nat) ≤ 0x41 ∧ 0xFF < (write_char true 0x41).getD 1 0) :=
  ⟨⟨by decide, c10_write_cmd_overflow.1 0x41 0 true (by decide)⟩,
   ⟨by decide, c10_write_cmd_overflow.2 0x41 true (by decide)⟩⟩

/-! ## C3 -/

/-- C3 (code bug): for `rows = 1` the issued byte is `0x20` as claimed,
but for any other row count the conditional-expression precedence makes
the issued byte the bare `FUNCTION_2LINE = 0x08` — not the claimed
`FUNCTION_SET | FUNCTION_4BIT | FUNCTION_5X8 | FUNCTION_2LINE = 0x28`.
`0x08` does not even carry the FunctionSet opcode bit; it decodes as a
DisplaySet command with every flag clear. -/
theorem c3_function_set_divergence :
    functionSetByte 1 = FUNCTION_SET ||| FUNCTION_4BIT ||| FUNCTION_5X8 ||| FUNCTION_1LINE ∧
    functionSetByte 1 = 0x20 ∧
    (∀ rows : Nat, rows ≠ 1 → functionSetByte rows = 0x08) ∧
    FUNCTION_SET ||| FUNCTION_4BIT ||| FUNCTION_5X8 ||| FUNCTION_2LINE = 0x28 ∧
    functionSetByte 2 ≠ 0x28 ∧
    functionSetByte 2 &&& FUNCTION_SET = 0 := by
  refine ⟨by decide, by decide, ?_, by decide, by decide, by decide⟩
  intro rows h
  simp [functionSetByte, h, FUNCTION_2LINE]

/-- Witness for C3 at `rows = 2` (the constructor's default). -/
theorem c3_function_set_divergence_witness :
    (2 : Nat) ≠ 1 ∧ functionSetByte 2 = 0x08 :=
  ⟨by decide, c3_function_set_divergence.2.2.1 2 (by decide)⟩

/-! ## C7 -/

/-- C7 (code bug): each scroll invocation does issue exactly `n` identical
commands, and in the Right direction those commands are the claimed
`CURSOR_SHIFT | DC_CURSOR_MOVE | DC_MOVE_RIGHT = 0x14` resp.
`CURSOR_SHIFT | DC_DISPLAY_MOVE | DC_MOVE_RIGHT = 0x1C`; but in the Left
direction the precedence slip makes every issued command the bare
`DC_MOVE_LEFT = 0x00` instead of the claimed `0x10` resp. `0x18`. -/
theorem c7_scroll_divergence :
    (∀ n : Nat, ∀ dir : Bool,
      (scrollCursorCmds n dir).length = n ∧
      scrollCursorCmds n dir = List.replicate n (scrollCursorByte dir) ∧
      (scrollDisplayCmds n dir).length = n ∧
      scrollDisplayCmds n dir = List.replicate n (scrollDisplayByte dir)) ∧
    scrollCursorByte true = CURSOR_SHIFT ||| DC_CURSOR_MOVE ||| DC_MOVE_RIGHT ∧
    scrollDisplayByte true = CURSOR_SHIFT ||| DC_DISPLAY_MOVE ||| DC_MOVE_RIGHT ∧
    scrollCursorByte false = 0x00 ∧
    scrollCursorByte false ≠ CURSOR_SHIFT ||| DC_CURSOR_MOVE ||| DC_MOVE_LEFT ∧
    scrollDisplayByte false = 0x00 ∧
    scrollDisplayByte false ≠ CURSOR_SHIFT ||| DC_DISPLAY_MOVE ||| DC_MOVE_LEFT := by
  refine ⟨?_, by decide, by decide, by decide, by decide, by decide, by decide⟩
  intro n dir
  induction n with
  | zero => exact ⟨rfl, rfl, rfl, rfl⟩
  | succ n ih =>
      refine ⟨?_, ?_, ?_, ?_⟩ <;>
        simp [scrollCursorCmds, scrollDisplayCmds, List.replicate,
              ih.1, ih.2.1, ih.2.2.1, ih.2.2.2]

/-! ## C6 -/

/-- C6 (code bug): the bodies issue ClearDisplay resp. ReturnHome and then
block 1670 µs ≥ 1520 µs, as claimed — but neither method declares the
`self` parameter, so neither is callable the way the other public
operations are: a bound call passes one argument to a zero-parameter
function. -/
theorem c6_clear_home_divergence :
    clearCmdByte = CLEAR_DISPLAY ∧ homeCmdByte = RETURN_HOME ∧
    1520 ≤ clearDelayUs ∧ 1520 ≤ homeDelayUs ∧
    clearParamCount ≠ boundCallArgCount ∧
    homeParamCount ≠ boundCallArgCount := by
  decide

/-! ## C8 -/

/-- C8: the claim fails on the code — constructing with zero columns is
not detected: `__init__` contains no parameter check, raises nothing,
and issues the full 12-transaction init sequence on the bus. -/
theorem c8_no_validation_counterexample :
    initRegTrace 2 0 ≠ [] ∧ (initRegTrace 2 0).length = 12 := by
  decide

/-- C8 (amended): construction performs no parameter validation at all; a
zero-column configuration is accepted silently, the full init-sequence
bus traffic is issued, and the column count is never consulted during
construction. -/
theorem c8_no_validation_amended :
    initRegTrace 2 0 =
      [0x30, 0x30, 0x30, 0x20, 0x08, 0x88, 0x08, 0xC8, 0x08, 0x18, 0x08, 0x68] ∧
    (∀ cols cols2 : Nat, initRegTrace 2 cols = initRegTrace 2 cols2) ∧
    (∀ rows cols : Nat, initRegTrace rows cols ≠ []) := by
  refine ⟨by decide, fun cols cols2 => rfl, ?_⟩
  intro rows cols
  simp [initRegTrace, initRawRegs]

/-! ## C9 -/

theorem dispCmd_props : ∀ d : Nat, d < 8 →
    isDisplaySetCmd (DISPLAY_SET ||| d) = true ∧
    isEntryModeSetCmd (DISPLAY_SET ||| d) = false ∧
    displayFlagsPayload (DISPLAY_SET ||| d) = d := by
  decide

theorem entryCmd_props : ∀ e : Nat, e < 4 →
    isEntryModeSetCmd (ENTRY_MODE_SET ||| e) = true ∧
    isDisplaySetCmd (ENTRY_MODE_SET ||| e) = false ∧
    entryModeFlagsPayload (ENTRY_MODE_SET ||| e) = e := by
  decide

theorem setBitVal_lt8 (v : Bool) : ∀ m : Nat, m < 8 → ∀ bit : Nat, bit < 8 →
    setBitVal m bit v < 8 := by
  cases v <;> decide

theorem setBitVal_lt4 (v : Bool) : ∀ m : Nat, m < 4 → ∀ bit : Nat, bit < 4 →
    setBitVal m bit v < 4 := by
  cases v <;> decide

/-- Display-group setter step preserves the C9 invariant. -/
theorem displayStep_inv (s : DriverState) (bit : Nat) (hbit : bit < 8) (v : Bool)
    (h : StateInv s) :
    StateInv { s with _display := setBitVal s._display bit v,
                      cmds := (DISPLAY_SET ||| setBitVal s._display bit v) :: s.cmds } := by
  obtain ⟨hd, he, _, hfe⟩ := h
  have hd' : setBitVal s._display bit v < 8 := setBitVal_lt8 v s._display hd bit hbit
  obtain ⟨hp1, hp2, hp3⟩ := dispCmd_props _ hd'
  refine ⟨hd', he, ?_, ?_⟩
  · rw [List.find?_cons_of_pos _ hp1]
    exact congrArg some hp3
  · rw [List.find?_cons_of_neg _ (by rw [hp2]; exact Bool.false_ne_true)]
    exact hfe

/-- Entry-mode-group setter step preserves the C9 invariant. -/
theorem entryStep_inv (s : DriverState) (bit : Nat) (hbit : bit < 4) (v : Bool)
    (h : StateInv s) :
    StateInv { s with _entry_mode := setBitVal s._entry_mode bit v,
                      cmds := (ENTRY_MODE_SET ||| setBitVal s._entry_mode bit v) :: s.cmds } := by
  obtain ⟨hd, he, hfd, _⟩ := h
  have he' : setBitVal s._entry_mode bit v < 4 := setBitVal_lt4 v s._entry_mode he bit hbit
  obtain ⟨hp1, hp2, hp3⟩ := entryCmd_props _ he'
  refine ⟨hd, he', ?_, ?_⟩
  · rw [List.find?_cons_of_neg _ (by rw [hp2]; exact Bool.false_ne_true)]
    exact hfd
  · rw [List.find?_cons_of_pos _ hp1]
    exact congrArg some hp3

/-- Every setter preserves the C9 invariant. -/
theorem applyOp_inv (op : Op) (s : DriverState) (h : StateInv s) :
    StateInv (applyOp op s) := by
  cases op with
  | display v => exact displayStep_inv s DISPLAY_ON (by decide) v h
  | cursor v => exact displayStep_inv s DISPLAY_CURSOR_ON (by decide) v h
  | cursor_blink v => exact displayStep_inv s DISPLAY_BLINK_ON (by decide) v h
  | scroll_lock v => exact entryStep_inv s ENTRY_MODE_INC (by decide) v h
  | left_to_right v => exact entryStep_inv s ENTRY_MODE_SHLEFT (by decide) v h
  | right_to_left v => exact entryStep_inv s ENTRY_MODE_SHLEFT (by decide) (!v) h

theorem runOps_inv (ops : List Op) : ∀ s : DriverState, StateInv s →
    StateInv (runOps ops s) := by
  induction ops with
  | nil => exact fun s h => h
  | cons op ops ih => exact fun s h => ih _ (applyOp_inv op s h)

/-- Construction establishes the C9 invariant. -/
theorem initState_inv (rows cols : Nat) : StateInv (initState rows cols) := by
  have hcmds : (initState rows cols).cmds = 6 :: 1 :: 12 :: [functionSetByte rows] := rfl
  refine ⟨?_, ?_, ?_, ?_⟩
  · show initDisplayMask < 8
    decide
  · show initEntryModeMask < 4
    decide
  · rw [hcmds, List.find?_cons_of_neg _ (by decide), List.find?_cons_of_neg _ (by decide),
        List.find?_cons_of_pos _ (by decide)]
    rfl
  · rw [hcmds, List.find?_cons_of_pos _ (by decide)]
    rfl

/-- Every setter only prepends to the bus record (device is write-only;
there is no read operation in the model). -/
theorem applyOp_cmds_cons (op : Op) (s : DriverState) :
    ∃ b, (applyOp op s).cmds = b :: s.cmds := by
  cases op <;> exact ⟨_, rfl⟩

theorem runOps_cmds_suffix (ops : List Op) : ∀ s : DriverState,
    s.cmds <:+ (runOps ops s).cmds := by
  induction ops with
  | nil => exact fun s => List.suffix_refl _
  | cons op ops ih =>
      intro s
      obtain ⟨b, hb⟩ := applyOp_cmds_cons op s
      calc s.cmds <:+ (applyOp op s).cmds := by rw [hb]; exact List.suffix_cons b s.cmds
        _ <:+ (runOps ops (applyOp op s)).cmds := ih _

/-- C9: after construction and after every sequence of attribute-setter
invocations, the in-memory display-control mask equals the flag payload
of the most recent DisplaySet command on the bus and the in-memory
entry-mode mask equals the flag payload of the most recent EntryModeSet
command; the bus record only ever grows (write-only device, no
read-back). -/
theorem c9_masks_mirror_bus (rows cols : Nat) (ops : List Op) :
    StateInv (runOps ops (initState rows cols)) ∧
    (initState rows cols).cmds <:+ (runOps ops (initState rows cols)).cmds :=
  ⟨runOps_inv ops _ (initState_inv rows cols), runOps_cmds_suffix ops _⟩

/-! ## C5 -/

theorem applyOp_dmut_display (f : DFlag) (v : Bool) (s : DriverState) :
    (applyOp (f.toOp v) s)._display = setBitVal s._display f.bit v := by
  cases f <;> rfl

theorem applyOp_dmut_cmds (f : DFlag) (v : Bool) (s : DriverState) :
    (applyOp (f.toOp v) s).cmds =
      (DISPLAY_SET ||| setBitVal s._display f.bit v) :: s.cmds := by
  cases f <;> rfl

theorem getFlag_setBitVal_self (v : Bool) (f : DFlag) :
    ∀ m : Nat, m < 8 → getFlag (setBitVal m f.bit v) f = v := by
  cases v <;> cases f <;> decide

theorem getFlag_setBitVal_other (v : Bool) (f g : DFlag) (hgf : g ≠ f) :
    ∀ m : Nat, m < 8 → getFlag (setBitVal m g.bit v) f = getFlag m f := by
  cases f <;> cases g <;> first
  | exact absurd rfl hgf
  | cases v <;> decide

theorem setBitVal_dflag_lt8 (v : Bool) (f : DFlag) :
    ∀ m : Nat, m < 8 → setBitVal m f.bit v < 8 := by
  cases v <;> cases f <;> decide

/-- The final mask assigns to each flag the value of the last mutation of
that flag, and leaves flags that were never mutated untouched. -/
theorem getFlag_runDMuts (ms : List (DFlag × Bool)) :
    ∀ s : DriverState, s._display < 8 → ∀ f : DFlag,
      getFlag (runDMuts ms s)._display f =
        (lastAssign f ms).getD (getFlag s._display f) := by
  induction ms with
  | nil => intro s hs f; rfl
  | cons m ms ih =>
      obtain ⟨g, v⟩ := m
      intro s hs f
      have hs' : (applyOp (g.toOp v) s)._display < 8 := by
        rw [applyOp_dmut_display]
        exact setBitVal_dflag_lt8 v g s._display hs
      have hrun : runDMuts ((g, v) :: ms) s = runDMuts ms (applyOp (g.toOp v) s) := rfl
      rw [hrun, ih _ hs' f]
      cases hla : lastAssign f ms with
      | some w => simp [lastAssign, hla]
      | none =>
          rw [applyOp_dmut_display]
          by_cases hgf : g = f
          · subst hgf
            simp [lastAssign, hla, getFlag_setBitVal_self v g s._display hs]
          · simp [lastAssign, hla, hgf, getFlag_setBitVal_other v f g hgf s._display hs]

/-- After a non-empty mutation sequence, the most recent bus command is
the DisplaySet command carrying exactly the final mask. -/
theorem runDMuts_head (ms : List (DFlag × Bool)) :
    ∀ s : DriverState, ms ≠ [] →
      (runDMuts ms s).cmds.head? =
        some (DISPLAY_SET ||| (runDMuts ms s)._display) := by
  induction ms with
  | nil => intro s h; exact absurd rfl h
  | cons m ms ih =>
      obtain ⟨g, v⟩ := m
      intro s _
      by_cases hm : ms = []
      · subst hm
        have hrun : runDMuts [(g, v)] s = applyOp (g.toOp v) s := rfl
        rw [hrun, applyOp_dmut_cmds, applyOp_dmut_display]
        rfl
      · exact ih (applyOp (g.toOp v) s) hm

/-- Mutations of two distinct flags commute on the final mask. -/
theorem runDMuts_swap (s : DriverState) (hs : s._display < 8) (f g : DFlag)
    (hfg : f ≠ g) (vf vg : Bool) :
    (runDMuts [(f, vf), (g, vg)] s)._display =
      (runDMuts [(g, vg), (f, vf)] s)._display := by
  have h1 : (runDMuts [(f, vf), (g, vg)] s)._display =
      setBitVal (setBitVal s._display f.bit vf) g.bit vg := by
    show (applyOp (g.toOp vg) (applyOp (f.toOp vf) s))._display = _
    rw [applyOp_dmut_display, applyOp_dmut_display]
  have h2 : (runDMuts [(g, vg), (f, vf)] s)._display =
      setBitVal (setBitVal s._display g.bit vg) f.bit vf := by
    show (applyOp (f.toOp vf) (applyOp (g.toOp vg) s))._display = _
    rw [applyOp_dmut_display, applyOp_dmut_display]
  rw [h1, h2]
  revert hs
  generalize s._display = d
  revert d
  cases f <;> cases g <;> first
  | exact absurd rfl hfg
  | cases vf <;> cases vg <;> decide

/-- C5: for every sequence of display-on / cursor-visible / cursor-blink
mutations applied to a driver state whose display mask is in range (as
every reachable state's is), (i) the last command issued encodes exactly
the final in-memory mask, (ii) each flag of the final mask is the value
of its last mutation in the sequence, with unmutated flags undisturbed,
and (iii) mutations of two distinct flags yield the same final mask and
the same final command byte in either order. -/
theorem c5_display_flag_algebra (s : DriverState) (hs : s._display < 8) :
    (∀ ms : List (DFlag × Bool), ms ≠ [] →
       (runDMuts ms s).cmds.head? =
         some (DISPLAY_SET ||| (runDMuts ms s)._display)) ∧
    (∀ ms : List (DFlag × Bool), ∀ f : DFlag,
       getFlag (runDMuts ms s)._display f =
         (lastAssign f ms).getD (getFlag s._display f)) ∧
    (∀ f g : DFlag, f ≠ g → ∀ vf vg : Bool,
       (runDMuts [(f, vf), (g, vg)] s)._display =
         (runDMuts [(g, vg), (f, vf)] s)._display ∧
       (runDMuts [(f, vf), (g, vg)] s).cmds.head? =
         (runDMuts [(g, vg), (f, vf)] s).cmds.head?) := by
  refine ⟨fun ms h => runDMuts_head ms s h, fun ms f => getFlag_runDMuts ms s hs f, ?_⟩
  intro f g hfg vf vg
  have hsw := runDMuts_swap s hs f g hfg vf vg
  refine ⟨hsw, ?_⟩
  rw [runDMuts_head _ s (by exact List.cons_ne_nil _ _),
      runDMuts_head _ s (by exact List.cons_ne_nil _ _), hsw]

/-- Witness for C5 on the state constructed by `HD44780(rows=4, cols=20)`:
display-off then blink-on commutes with blink-on then display-off, and
the blink flag of the final mask is the last value assigned to it. -/
theorem c5_display_flag_algebra_witness :
    (initState 4 20)._display < 8 ∧
    (runDMuts [(DFlag.dispOn, false), (DFlag.blink, true)] (initState 4 20))._display =
      (runDMuts [(DFlag.blink, true), (DFlag.dispOn, false)] (initState 4 20))._display ∧
    getFlag (runDMuts [(DFlag.blink, true)] (initState 4 20))._display DFlag.blink =
      (lastAssign DFlag.blink [(DFlag.blink, true)]).getD
        (getFlag (initState 4 20)._display DFlag.blink) :=
  ⟨by decide,
   ((c5_display_flag_algebra (initState 4 20) (by decide)).2.2
      DFlag.dispOn DFlag.blink (by decide) false true).1,
   (c5_display_flag_algebra (initState 4 20) (by decide)).2.1
      [(DFlag.blink, true)] DFlag.blink⟩

end HD44780
